import Mathlib

/-!
Verification of the resilient tool-provider client layer (MCP/A2A project).

The definitions below are a shallow embedding of the Python sources:
  - utils.py                 (sanitize_tool_name)
  - mcp_client/auth.py       (HMACAuth.sign_request, with a concrete model of
                              json.dumps, HMAC-SHA256 and base64)
  - a2a.py                   (A2AServerConfig.send_task_async and its
                              response-envelope extraction)
  - mcp_client/server.py     (_MCPServerWithClientSession: connect, list_tools,
                              call_tool, invalidate_tools_cache)
  - tool_integration.py      (filtered_prepare_dynamic_tools)

Network effects are modelled by passing in the sequence of transport outcomes
explicitly; machine integers are Nat with explicit reduction mod 2^32 where
the hash computation overflows.
-/

namespace MCPProj

/-! ## JSON values

Python passes `Dict[str, Any]` / parsed JSON around.  We model JSON values as
an inductive type; objects are insertion-ordered association lists, matching
Python dict semantics (keys unique, insertion order preserved). -/

inductive J where
  | str (s : String)
  | num (n : Int)
  | bool (b : Bool)
  | null
  | arr (elems : List J)
  | obj (fields : List (String × J))
deriving Repr, Inhabited

/-- Dictionary lookup `d.get(k)`: first binding of the key (Python dicts have
unique keys, so first = only). Non-objects have no keys. -/
def jGet (j : J) (k : String) : Option J :=
  match j with
  | .obj kvs => kvs.lookup k
  | _ => none

/-- Dictionary lookup with default: `d.get(k, dflt)`. -/
def jGetD (j : J) (k : String) (dflt : J) : J := (jGet j k).getD dflt

/-- Membership test `k in d`. -/
def jHas (j : J) (k : String) : Bool := (jGet j k).isSome

/-! ## utils.py : sanitize_tool_name -/

/-- Character class of the regex `[a-zA-Z0-9_-]` in `sanitize_tool_name`,
by code point: a-z is 97-122, A-Z is 65-90, 0-9 is 48-57, underscore 95,
hyphen 45. -/
def isSafeChar (c : Char) : Bool :=
  ((97 ≤ c.toNat && c.toNat ≤ 122) || (65 ≤ c.toNat && c.toNat ≤ 90)
    || (48 ≤ c.toNat && c.toNat ≤ 57) || c.toNat = 95 || c.toNat = 45)

/-- utils.sanitize_tool_name: `re.sub(r'[^a-zA-Z0-9_-]', '_', name)` replaces
every character outside the safe class with an underscore, one character at a
time. -/
def sanitize_tool_name (name : String) : String :=
  ⟨name.data.map (fun c => if isSafeChar c then c else '_')⟩

/-! ## SHA-256, HMAC and base64

mcp_client/auth.py signs with `hmac.new(key, body, hashlib.sha256)` and
base64-encodes the digest.  We embed the full algorithms over byte lists
(`List Nat`, each entry < 256), with 32-bit overflow made explicit by `w32`. -/

/-- Reduce to a 32-bit word, making overflow explicit. -/
def w32 (n : Nat) : Nat := n % 4294967296

/-- Rotate a 32-bit word right by n bits. -/
def rotr (x n : Nat) : Nat := w32 ((x >>> n) ||| (x <<< (32 - n)))

/-- SHA-256 choice function (bitwise not x is xor with 2^32 - 1). -/
def shaCh (x y z : Nat) : Nat := (x &&& y) ^^^ ((x ^^^ 4294967295) &&& z)

/-- SHA-256 majority function. -/
def shaMaj (x y z : Nat) : Nat := (x &&& y) ^^^ (x &&& z) ^^^ (y &&& z)

def bigSigma0 (x : Nat) : Nat := rotr x 2 ^^^ rotr x 13 ^^^ rotr x 22

def bigSigma1 (x : Nat) : Nat := rotr x 6 ^^^ rotr x 11 ^^^ rotr x 25

def smallSigma0 (x : Nat) : Nat := rotr x 7 ^^^ rotr x 18 ^^^ (x >>> 3)

def smallSigma1 (x : Nat) : Nat := rotr x 17 ^^^ rotr x 19 ^^^ (x >>> 10)

/-- The 64 SHA-256 round constants. -/
def shaK : List Nat :=
  [1116352408, 1899447441, 3049323471, 3921009573, 961987163, 1508970993,
   2453635748, 2870763221, 3624381080, 310598401, 607225278, 1426881987,
   1925078388, 2162078206, 2614888103, 3248222580, 3835390401, 4022224774,
   264347078, 604807628, 770255983, 1249150122, 1555081692, 1996064986,
   2554220882, 2821834349, 2952996808, 3210313671, 3336571891, 3584528711,
   113926993, 338241895, 666307205, 773529912, 1294757372, 1396182291,
   1695183700, 1986661051, 2177026350, 2456956037, 2730485921, 2820302411,
   3259730800, 3345764771, 3516065817, 3600352804, 4094571909, 275423344,
   430227734, 506948616, 659060556, 883997877, 958139571, 1322822218,
   1537002063, 1747873779, 1955562222, 2024104815, 2227730452, 2361852424,
   2428436474, 2756734187, 3204031479, 3329325298]

/-- The SHA-256 initial hash value. -/
def shaH0 : List Nat :=
  [1779033703, 3144134277, 1013904242, 2773480762,
   1359893119, 2600822924, 528734635, 1541459225]

/-- Big-endian byte decomposition: k bytes of n. -/
def beBytes (k n : Nat) : List Nat :=
  (List.range k).map (fun i => (n >>> (8 * (k - 1 - i))) &&& 255)

/-- SHA-256 message padding: append 0x80, zero bytes to 56 mod 64, then the
bit length as an 8-byte big-endian integer. -/
def sha256Pad (msg : List Nat) : List Nat :=
  let len := msg.length
  let zeros := (120 - (len + 1) % 64) % 64
  msg ++ [0x80] ++ List.replicate zeros 0 ++ beBytes 8 (len * 8)

/-- Pack bytes into big-endian 32-bit words (4 bytes per word). -/
def toWords : List Nat → List Nat
  | b0 :: b1 :: b2 :: b3 :: rest =>
      (b0 * 16777216 + b1 * 65536 + b2 * 256 + b3) :: toWords rest
  | _ => []

/-- Extend the 16 block words to the 64-entry message schedule. -/
def extendW (ws : List Nat) : List Nat :=
  (List.range 64).foldl
    (fun acc i =>
      if i < 16 then acc ++ [ws.getD i 0]
      else acc ++ [w32 (smallSigma1 (acc.getD (i - 2) 0) + acc.getD (i - 7) 0 +
                        smallSigma0 (acc.getD (i - 15) 0) + acc.getD (i - 16) 0)])
    []

/-- One SHA-256 compression round. -/
def shaRound (ws : List Nat) (st : List Nat) (i : Nat) : List Nat :=
  match st with
  | [a, b, c, d, e, f, g, h] =>
      let t1 := w32 (h + bigSigma1 e + shaCh e f g + shaK.getD i 0 + ws.getD i 0)
      let t2 := w32 (bigSigma0 a + shaMaj a b c)
      [w32 (t1 + t2), a, b, c, w32 (d + t1), e, f, g]
  | st => st

/-- Compress one 64-byte block into the running hash state. -/
def shaCompress (h : List Nat) (block : List Nat) : List Nat :=
  let ws := extendW (toWords block)
  let st := (List.range 64).foldl (shaRound ws) h
  (h.zip st).map (fun p => w32 (p.1 + p.2))

/-- Split a byte list into 64-byte blocks (fuel-indexed structural recursion;
the fuel bounds the number of blocks, and `chunks64` passes the list length,
which always suffices since every step consumes at least one element). -/
def chunks64Go : Nat → List Nat → List (List Nat)
  | 0, _ => []
  | _, [] => []
  | fuel + 1, l => l.take 64 :: chunks64Go fuel (l.drop 64)

/-- Split a byte list into 64-byte blocks. -/
def chunks64 (l : List Nat) : List (List Nat) := chunks64Go l.length l

/-- SHA-256 of a byte sequence, as 32 bytes. -/
def sha256 (msg : List Nat) : List Nat :=
  let hs := (chunks64 (sha256Pad msg)).foldl shaCompress shaH0
  (hs.map (beBytes 4)).flatten

/-- HMAC-SHA256, as computed by hmac.new(key, msg, hashlib.sha256).digest(). -/
def hmacSha256 (key msg : List Nat) : List Nat :=
  let k0 := if key.length > 64 then sha256 key else key
  let kp := k0 ++ List.replicate (64 - k0.length) 0
  let ipadK := kp.map (fun b => b ^^^ 0x36)
  let opadK := kp.map (fun b => b ^^^ 0x5c)
  sha256 (opadK ++ sha256 (ipadK ++ msg))

/-- UTF-8 encoding of one character. -/
def utf8Bytes (c : Char) : List Nat :=
  let n := c.toNat
  if n < 0x80 then [n]
  else if n < 0x800 then [0xC0 + n / 0x40, 0x80 + n % 0x40]
  else if n < 0x10000 then
    [0xE0 + n / 0x1000, 0x80 + (n / 0x40) % 0x40, 0x80 + n % 0x40]
  else
    [0xF0 + n / 0x40000, 0x80 + (n / 0x1000) % 0x40, 0x80 + (n / 0x40) % 0x40, 0x80 + n % 0x40]

/-- UTF-8 encoding of a string (Python str.encode("utf-8")). -/
def strBytes (s : String) : List Nat := (s.data.map utf8Bytes).flatten

/-- The base64 alphabet. -/
def b64Alphabet : List Char :=
  "ABCDEFGHIJKLMNOPQRSTUVWXYZabcdefghijklmnopqrstuvwxyz0123456789+/".data

def b64Char (n : Nat) : Char := b64Alphabet.getD n 'A'

/-- Standard base64 encoding with padding, as base64.b64encode produces. -/
def b64encode : List Nat → String
  | [] => ""
  | [a] =>
      String.mk [b64Char (a >>> 2), b64Char ((a &&& 3) <<< 4)] ++ "=="
  | [a, b] =>
      String.mk [b64Char (a >>> 2), b64Char (((a &&& 3) <<< 4) ||| (b >>> 4)),
                 b64Char ((b &&& 15) <<< 2)] ++ "="
  | a :: b :: c :: rest =>
      String.mk [b64Char (a >>> 2), b64Char (((a &&& 3) <<< 4) ||| (b >>> 4)),
                 b64Char (((b &&& 15) <<< 2) ||| (c >>> 6)), b64Char (c &&& 63)]
        ++ b64encode rest

/-! ## Canonical JSON serialization (json.dumps with sort_keys)

auth.py serializes the parameters with
`json.dumps(params_copy, sort_keys=True, separators=(",", ":"))`.
The serializer below mirrors that: object keys sorted (Python sorts strings
by code points, which is exactly the String order used here), no whitespace,
default ensure_ascii escaping.  It is fuel-indexed so that it reduces inside
the kernel; the fuel only bounds the nesting depth and `dumps` passes
`sizeOf`, which strictly dominates the depth, so the zero-fuel branch is
never reached from `dumps`. -/

def hexDigit (n : Nat) : Char := "0123456789abcdef".data.getD n '0'

def hex4 (n : Nat) : String :=
  String.mk [hexDigit (n / 4096 % 16), hexDigit (n / 256 % 16), hexDigit (n / 16 % 16),
             hexDigit (n % 16)]

/-- Escape one character the way json.dumps (ensure_ascii=True) does: quote,
backslash and everything outside the printable ASCII range 0x20-0x7e. -/
def jsonEscapeChar (c : Char) : String :=
  if c = '"' then "\\\""
  else if c = '\\' then "\\\\"
  else if c = '\n' then "\\n"
  else if c = '\t' then "\\t"
  else if c = '\r' then "\\r"
  else if c.toNat = 8 then "\\b"
  else if c.toNat = 12 then "\\f"
  else if c.toNat < 32 || c.toNat > 126 then
    if c.toNat < 65536 then "\\u" ++ hex4 c.toNat
    else
      let n := c.toNat - 65536
      "\\u" ++ hex4 (55296 + n / 1024) ++ "\\u" ++ hex4 (56320 + n % 1024)
  else String.singleton c

/-- JSON string literal with escaping. -/
def jsonQuote (s : String) : String :=
  "\"" ++ String.join (s.data.map jsonEscapeChar) ++ "\""

/-- Python string comparison: strict lexicographic order on code points. -/
def keyLt : List Char → List Char → Bool
  | [], [] => false
  | [], _ :: _ => true
  | _ :: _, [] => false
  | c :: cs, d :: ds => c.toNat < d.toNat || (c.toNat = d.toNat && keyLt cs ds)

/-- Non-strict Python string order (total: a <= b iff not b < a). -/
def keyLe (a b : List Char) : Bool := !(keyLt b a)

/-- The comparator Python sorted() uses on dict entries: compare keys. -/
def keyRel (a b : String × J) : Prop := keyLe a.1.data b.1.data = true

instance : DecidableRel keyRel := fun _ _ => inferInstanceAs (Decidable (_ = true))

/-- The strict version of the entry comparator. -/
def keyRelLt (a b : String × J) : Prop := keyLt a.1.data b.1.data = true

/-- Python sorted() on the keys of a dict: stable insertion sort under the
code-point order on keys, exactly what sort_keys=True performs. -/
def sortByKey (kvs : List (String × J)) : List (String × J) :=
  kvs.insertionSort keyRel

/-! Structural size of a JSON value, used as serialization fuel. -/

mutual

def jsize : J → Nat
  | .str _ => 1
  | .num _ => 1
  | .bool _ => 1
  | .null => 1
  | .arr xs => 1 + jsizeList xs
  | .obj kvs => 1 + jsizeFields kvs

def jsizeList : List J → Nat
  | [] => 0
  | x :: xs => 1 + jsize x + jsizeList xs

def jsizeFields : List (String × J) → Nat
  | [] => 0
  | (_, v) :: kvs => 1 + jsize v + jsizeFields kvs

end

/-- Fuel-indexed json.dumps with sort_keys=True and separators=(",", ":"). -/
def dumpsF : Nat → J → String
  | 0, _ => ""
  | fuel + 1, j =>
    match j with
    | .str s => jsonQuote s
    | .num n => toString n
    | .bool b => cond b "true" "false"
    | .null => "null"
    | .arr xs => "[" ++ String.intercalate "," (xs.map (fun x => dumpsF fuel x)) ++ "]"
    | .obj kvs =>
        "\x7b" ++ String.intercalate ","
          ((sortByKey kvs).map (fun kv => jsonQuote kv.1 ++ ":" ++ dumpsF fuel kv.2)) ++ "\x7d"

/-- json.dumps(j, sort_keys=True, separators=(",", ":")).  The fuel `jsize j`
strictly dominates the nesting depth (every child has strictly smaller
`jsize`, and `jsize` is at least 1 on every value), so the zero-fuel branch
of `dumpsF` is never taken. -/
def dumps (j : J) : String := dumpsF (jsize j) j

/-! ## mcp_client/auth.py : HMACAuth.sign_request

The constructor decodes the configured secret from base64, falling back to
raw utf-8 bytes; the claims quantify over the resulting key bytes, so
`sign_request` takes `secret_key` directly, exactly as the method reads
`self.secret_key`. -/

/-- del params_copy["auth"]: drop the binding of a key from a dict
(modelled on association lists; Python dicts hold each key once). -/
def delKey (kvs : List (String × J)) (k : String) : List (String × J) :=
  kvs.filter (fun kv => kv.1 != k)

/-- Python dict assignment d[k] = v: overwrite in place if the key exists
(its position is preserved), otherwise append the new binding. -/
def setKey : List (String × J) → String → J → List (String × J)
  | [], k, v => [(k, v)]
  | (k0, v0) :: rest, k, v =>
      if k0 = k then (k0, v) :: rest else (k0, v0) :: setKey rest k v

/-- The signature computed inside sign_request: canonical serialization of
the params without any auth key, HMAC-SHA256 under the secret, base64. -/
def computedSignature (secret_key : List Nat) (params : List (String × J)) :
    String :=
  b64encode (hmacSha256 secret_key (strBytes (dumps (J.obj (delKey params "auth")))))

/-- HMACAuth.sign_request: strip any existing auth key, serialize the rest
canonically, HMAC-SHA256 it, base64 the digest, and return the original
params with the signature stored under auth. -/
def sign_request (secret_key : List Nat) (params : List (String × J)) :
    List (String × J) :=
  let params_copy := delKey params "auth"
  let body_bytes := strBytes (dumps (J.obj params_copy))
  let signature := b64encode (hmacSha256 secret_key body_bytes)
  setKey params "auth" (J.str signature)

/-- The auth string of a signed params dict (empty if absent or non-string). -/
def authValue (kvs : List (String × J)) : String :=
  match kvs.lookup "auth" with
  | some (J.str s) => s
  | _ => ""

/-! ## a2a.py : Python repr, used by the f-strings of send_task_async

The failed/incomplete branches format a whole status dict into the message
with an f-string, which calls str() on it; str() of a dict is its repr.
Strings of this repository's payloads are plain ASCII without quotes, for
which repr is just single-quote wrapping, as embedded here. -/

/-- Fuel-indexed Python repr of a JSON-shaped value (dict/list/str/int/bool/
None), insertion order preserved as Python dict repr does. -/
def pyReprF : Nat → J → String
  | 0, _ => ""
  | fuel + 1, j =>
    match j with
    | .str s => "\x27" ++ s ++ "\x27"
    | .num n => toString n
    | .bool b => cond b "True" "False"
    | .null => "None"
    | .arr xs => "[" ++ String.intercalate ", " (xs.map (fun x => pyReprF fuel x)) ++ "]"
    | .obj kvs =>
        "\x7b" ++ String.intercalate ", "
          (kvs.map (fun kv => "\x27" ++ kv.1 ++ "\x27: " ++ pyReprF fuel kv.2)) ++ "\x7d"

/-- Python repr of a JSON-shaped value. -/
def pyRepr (j : J) : String := pyReprF (jsize j) j

/-- Python str(): strings unquoted, anything else via repr. -/
def pyStr : J → String
  | .str s => s
  | j => pyRepr j

/-! ## a2a.py : A2AServerConfig.send_task_async

The outcome of the send: either a returned reply string, or one of the two
exception classes the method raises (A2ATaskError, A2AConnectionError). -/

inductive TaskOutcome where
  | ok (text : String)
  | taskError (msg : String)
  | connError (msg : String)
deriving Repr, DecidableEq

/-- The text-part concatenation loops of send_task_async: append part["text"]
for every part whose kind is "text" and which carries a text field.  (A
non-string text value would make the Python += raise; no payload in this
repository produces one, and it is not modelled.) -/
def collectText (parts : List J) : String :=
  parts.foldl
    (fun acc part =>
      match jGet part "kind", jGet part "text" with
      | some (J.str k), some (J.str t) => if k = "text" then acc ++ t else acc
      | _, _ => acc)
    ""

/-- The history fallback loop (a2a.py lines 204-214), already given the
reversed history: find the first agent-role message with a non-empty parts
list and extract its text (or the no-text sentinel); skip everything else. -/
def historyScan : List J → Option String
  | [] => none
  | msg :: rest =>
    match jGet msg "role" with
    | some (J.str r) =>
        if r = "agent" then
          match jGet msg "parts" with
          | some (J.arr parts) =>
              if parts.isEmpty then historyScan rest
              else
                some (let t := collectText parts
                      if t = "" then "No text content in response" else t)
          | _ => historyScan rest
        else historyScan rest
    | _ => historyScan rest

/-- The completed branch (a2a.py lines 189-216): prefer the first artifact
when the artifacts list is non-empty and that artifact has a non-empty parts
list; otherwise scan the history in reverse; otherwise the completed-empty
sentinel. -/
def processCompleted (result : J) : TaskOutcome :=
  let artifactStep : Option String :=
    match jGet result "artifacts" with
    | some (J.arr (artifact :: _)) =>
        (match jGet artifact "parts" with
         | some (J.arr parts) =>
             if parts.isEmpty then none
             else
               some (let t := collectText parts
                     if t = "" then "No text content in response" else t)
         | _ => none)
    | _ => none
  match artifactStep with
  | some t => .ok t
  | none =>
      let history := match jGet result "history" with
        | some (J.arr h) => h
        | _ => []
      match historyScan history.reverse with
      | some t => .ok t
      | none => .ok "Task completed but no response found"

/-- The failed branch (a2a.py lines 217-227): extract text parts from the
status-embedded message when it is a dict with a non-empty parts list,
otherwise fail with the raw status repr. -/
def processFailed (status : J) : TaskOutcome :=
  match jGet status "message" with
  | some (J.obj fields) =>
      (match fields.lookup "parts" with
       | some (J.arr parts) =>
           if parts.isEmpty then .taskError ("Task failed: " ++ pyStr status)
           else .taskError ("Task failed: " ++ collectText parts)
       | _ => .taskError ("Task failed: " ++ pyStr status))
  | _ => .taskError ("Task failed: " ++ pyStr status)

/-- Processing of the decoded JSON body of a 200 response inside the try
block (a2a.py lines 177-229): protocol-level error field fails immediately
with A2ATaskError; otherwise dispatch on status.state. -/
def processBody (task_response : J) : TaskOutcome :=
  if jHas task_response "error" then
    let error := jGetD task_response "error" J.null
    .taskError ("JSON-RPC error: " ++
      (match jGet error "message" with
       | some (J.str m) => m
       | some v => pyStr v
       | none => "Unknown error"))
  else
    let result := jGetD task_response "result" (J.obj [])
    let status := jGetD result "status" (J.obj [])
    match jGet status "state" with
    | some (J.str s) =>
        if s = "completed" then processCompleted result
        else if s = "failed" then processFailed status
        else .ok ("Task did not complete. Status: " ++ pyStr status)
    | _ => .ok ("Task did not complete. Status: " ++ pyStr status)

/-- One transport-level outcome of the POST in send_task_async: the typed
httpx exceptions the method catches, or an HTTP response carrying a status
code, its text, and the result of decoding its body as JSON. -/
inductive HttpOutcome where
  | timeout (msg : String)
  | connectFail (msg : String)
  | requestFail (msg : String)
  | httpResponse (status : Nat) (text : String) (bodyDecode : Except String J)

/-- The observable trace of one send_task_async call. -/
structure SendTrace where
  outcome : TaskOutcome
  attemptsPerformed : Nat
  delays : List Nat
deriving Repr, DecidableEq

/-- The retry loop of send_task_async (a2a.py lines 157-266): attempt counts
up from 0 through max_retries as in range(max_retries + 1); transient httpx
failures back off for 2 ^ attempt seconds and retry while attempt <
max_retries, and exhaust into A2AConnectionError naming max_retries + 1
attempts; A2ATaskError (non-200 status, protocol error field, failed task)
and JSON decode failures never retry.  Fuel counts the remaining loop
iterations; send_task_async passes max_retries + 1, so the zero-fuel branch
(the defensive raise on line 266) is unreachable. -/
def sendTaskGo (transport : Nat → HttpOutcome) (max_retries : Nat) :
    Nat → Nat → List Nat → SendTrace
  | 0, attempt, delays =>
      ⟨.connError ("Unexpected error after " ++ toString (max_retries + 1) ++ " attempts"),
        attempt, delays⟩
  | fuel + 1, attempt, delays =>
      match transport attempt with
      | .httpResponse status text bodyDecode =>
          if status ≠ 200 then
            ⟨.taskError ("Task request failed: " ++ toString status ++ " - " ++ text),
              attempt + 1, delays⟩
          else
            (match bodyDecode with
             | .error e =>
                 ⟨.connError ("Invalid JSON response from task endpoint: " ++ e),
                   attempt + 1, delays⟩
             | .ok body => ⟨processBody body, attempt + 1, delays⟩)
      | .timeout _ =>
          if attempt < max_retries then
            sendTaskGo transport max_retries fuel (attempt + 1) (delays ++ [2 ^ attempt])
          else
            ⟨.connError ("Request timed out after " ++ toString (max_retries + 1) ++
                " attempts. The A2A agent may be overloaded or experiencing issues."),
              attempt + 1, delays⟩
      | .connectFail e =>
          if attempt < max_retries then
            sendTaskGo transport max_retries fuel (attempt + 1) (delays ++ [2 ^ attempt])
          else
            ⟨.connError ("Failed to connect to A2A agent after " ++
                toString (max_retries + 1) ++ " attempts: " ++ e),
              attempt + 1, delays⟩
      | .requestFail e =>
          if attempt < max_retries then
            sendTaskGo transport max_retries fuel (attempt + 1) (delays ++ [2 ^ attempt])
          else
            ⟨.connError ("Network error sending task to A2A agent after " ++
                toString (max_retries + 1) ++ " attempts: " ++ e),
              attempt + 1, delays⟩

/-- A2AServerConfig.send_task_async, as a function of the per-attempt
transport outcome and the retry budget. -/
def send_task_async (transport : Nat → HttpOutcome) (max_retries : Nat) : SendTrace :=
  sendTaskGo transport max_retries (max_retries + 1) 0 []

/-! ## mcp_client/server.py : _MCPServerWithClientSession -/

/-- A tool as listed by the server.  mcp.types.Tool is an external library
type; all this repository reads of it is the name, so only the name is
modelled. -/
structure MCPTool where
  name : String
deriving Repr, DecidableEq

/-- The mutable instance state of _MCPServerWithClientSession that the
connect / list_tools / invalidate_tools_cache methods read and write. -/
structure ServerState where
  sessionConnected : Bool
  cache_tools_list : Bool
  cacheDirty : Bool
  toolsList : Option (List MCPTool)
deriving Repr, DecidableEq

/-- The state right after __init__: no session, cache dirty, no tools. -/
def initState (cache_tools_list : Bool) : ServerState :=
  ⟨false, cache_tools_list, true, none⟩

/-- invalidate_tools_cache: set the dirty flag. -/
def invalidate_tools_cache (st : ServerState) : ServerState :=
  { st with cacheDirty := true }

/-- What one list_tools call produced. -/
inductive ListToolsResult where
  | notInitialized
  | fetchFailed (e : String)
  | ok (tools : List MCPTool)
deriving Repr, DecidableEq

/-- The observable effect of one list_tools call: its result, whether a
network fetch was performed, and the state afterwards. -/
structure ListToolsStep where
  result : ListToolsResult
  fetchPerformed : Bool
  state : ServerState
deriving Repr, DecidableEq

/-- list_tools (server.py lines 113-132): RuntimeError when never connected;
cached return (no fetch) when caching is on, the cache is not dirty and the
stored list is truthy (not None and non-empty); otherwise clear the dirty
flag, then fetch — a fetch failure re-raises, after the flag was already
cleared.  The session fetch outcome is passed in as `fetch`. -/
def list_tools (st : ServerState) (fetch : Except String (List MCPTool)) :
    ListToolsStep :=
  if !st.sessionConnected then ⟨.notInitialized, false, st⟩
  else if st.cache_tools_list && !st.cacheDirty &&
      (match st.toolsList with | some l => !l.isEmpty | none => false) then
    ⟨.ok (st.toolsList.getD []), false, st⟩
  else
    let st1 := { st with cacheDirty := false }
    match fetch with
    | .ok tools => ⟨.ok tools, true, { st1 with toolsList := some tools }⟩
    | .error e => ⟨.fetchFailed e, true, st1⟩

/-- The outcome of connect: success or exhaustion, with the number of
attempts performed; on exhaustion the method runs `raise last_exc`, so the
propagated value is the last underlying error (None only in the degenerate
max_retries = 0 case, where Python's bare `raise None` is itself a
TypeError). -/
inductive ConnectResult (ε : Type) where
  | connected (attempts : Nat)
  | failed (attempts : Nat) (lastExc : Option ε)
deriving Repr, DecidableEq

/-- The retry loop of connect (server.py lines 90-111): fuel is the number
of remaining iterations of range(1, max_retries + 1), `performed` the number
of attempts already made, `lastExc` the running last_exc.  Each attempt
(open transport, open session, initialize) is summarized by
`attemptResult`. -/
def connectGo (attemptResult : Nat → Except ε Unit) :
    Nat → Nat → Option ε → ConnectResult ε
  | 0, performed, lastExc => .failed performed lastExc
  | fuel + 1, performed, _ =>
      match attemptResult (performed + 1) with
      | .ok _ => .connected (performed + 1)
      | .error e => connectGo attemptResult fuel (performed + 1) (some e)

/-- connect (server.py lines 90-111), as a function of the per-attempt
transport/session outcome and the retry budget. -/
def connect (attemptResult : Nat → Except ε Unit) (max_retries : Nat) :
    ConnectResult ε :=
  connectGo attemptResult max_retries 0 none

/-- The middleware application loop at the top of call_tool (server.py
lines 137-143): fold every step over the running arguments, in order; a
step's exception propagates immediately. -/
def applyMiddleware (middleware : List (String → α → Except ε α))
    (tool_name : String) (arguments : α) : Except ε α :=
  middleware.foldl (fun acc mw => acc.bind (mw tool_name)) (.ok arguments)

/-- The observable trace of one call_tool call: the arguments each attempt
of the try block used, and the outcome (`.ok none` is the implicit None
return when range(1, max_retries + 1) is empty, i.e. max_retries = 0). -/
structure CallTrace (α ρ ε : Type) where
  attemptArgs : List α
  outcome : Except ε (Option ρ)

/-- The retry loop of call_tool (server.py lines 145-161): each iteration
runs the try block (connect if needed, then the underlying
session.call_tool) with the already-processed arguments; on failure,
cleanup, and — except on the final attempt — reconnect before retrying
(`reconnect` is the line 158 connect, whose failure propagates out of the
loop); the final attempt re-raises the last error. -/
def callToolGo (tryAttempt : α → Nat → Except ε ρ) (reconnect : Nat → Except ε Unit)
    (max_retries : Nat) (processed_args : α) :
    Nat → Nat → List α → CallTrace α ρ ε
  | 0, _, calls => ⟨calls, .ok none⟩
  | fuel + 1, attempt, calls =>
      match tryAttempt processed_args attempt with
      | .ok r => ⟨calls ++ [processed_args], .ok (some r)⟩
      | .error e =>
          if attempt < max_retries then
            match reconnect attempt with
            | .ok _ =>
                callToolGo tryAttempt reconnect max_retries processed_args
                  fuel (attempt + 1) (calls ++ [processed_args])
            | .error e2 => ⟨calls ++ [processed_args], .error e2⟩
          else ⟨calls ++ [processed_args], .error e⟩

/-- call_tool (server.py lines 134-161): middleware first (its failure
aborts with no attempt), then the retry loop over the processed
arguments. -/
def call_tool (middleware : List (String → α → Except ε α))
    (tryAttempt : α → Nat → Except ε ρ) (reconnect : Nat → Except ε Unit)
    (max_retries : Nat) (tool_name : String) (arguments : α) : CallTrace α ρ ε :=
  match applyMiddleware middleware tool_name arguments with
  | .error e => ⟨[], .error e⟩
  | .ok processed_args =>
      callToolGo tryAttempt reconnect max_retries processed_args max_retries 1 []

/-! ## tool_integration.py : filtered_prepare_dynamic_tools -/

/-- fnmatch.fnmatch for the glob constructs this repository uses: `*`
matches any sequence, `?` any single character, every other character
itself (no pattern here uses bracket classes; POSIX fnmatch is
case-sensitive).  Fuel-indexed structural recursion: every step shrinks
name.length + pattern.length, so the fuel passed by `fnmatch` suffices. -/
def fnmatchGo : Nat → List Char → List Char → Bool
  | 0, _, _ => false
  | _ + 1, [], [] => true
  | fuel + 1, [], p :: ps => p = '*' && fnmatchGo fuel [] ps
  | _ + 1, _ :: _, [] => false
  | fuel + 1, c :: cs, p :: ps =>
      if p = '*' then fnmatchGo fuel (c :: cs) ps || fnmatchGo fuel cs (p :: ps)
      else (p = '?' || p = c) && fnmatchGo fuel cs ps

/-- fnmatch.fnmatch(name, pat). -/
def fnmatch (name pat : String) : Bool :=
  fnmatchGo (name.length + pat.length + 1) name.data pat.data

/-- A skill dict from an A2A agent card: the fields the preparer reads. -/
structure Skill where
  skillName : Option String
  skillId : Option String
  description : String
deriving Repr, DecidableEq

/-- A provider, paired with what its list_tools() discovery returns (the
network is modelled by supplying the discovered list; isinstance(server,
A2AServerConfig) is the constructor tag). -/
inductive Provider where
  | a2a (name : String) (skills : List Skill)
  | mcp (name : String) (tools : List MCPTool)
deriving Repr, DecidableEq

/-- getattr(server, "name", None). -/
def Provider.pname : Provider → String
  | .a2a n _ => n
  | .mcp n _ => n

/-- tool_integration.filtered_prepare_dynamic_tools, tracked by the names of
the prepared tools (the FunctionTool wrapper and the invocation closure
carry nothing relevant to the filtering claims; the per-tool try/except in
the MCP branch only skips a tool whose wrapping raises, which cannot happen
in this embedding).  The A2A branch (lines 24-51) iterates every skill and
never consults `allowed`; the MCP branch (lines 52-64) filters by fnmatch
when the provider has an allow-list entry. -/
def filtered_prepare_dynamic_tools (mcp_servers : List Provider)
    (allowed_tools_map : List (String × List String)) : List String :=
  (mcp_servers.map (fun server =>
    let allowed := allowed_tools_map.lookup server.pname
    match server with
    | .a2a _ skills =>
        skills.map (fun skill =>
          sanitize_tool_name (skill.skillName.getD (skill.skillId.getD "unknown_skill")))
    | .mcp _ tools =>
        let tools2 := match allowed with
          | none => tools
          | some pats => tools.filter (fun t => pats.any (fun pat => fnmatch t.name pat))
        tools2.map (fun t => t.name))).flatten

/-! ## Shared test fixtures -/

/-- A part dict of kind text. -/
def textPart (t : String) : J := J.obj [("kind", J.str "text"), ("text", J.str t)]

/-- An artifact dict with the given parts. -/
def mkArtifact (parts : List J) : J := J.obj [("parts", J.arr parts)]

/-- An agent-role history message with one text part. -/
def agentTextMsg (t : String) : J :=
  J.obj [("role", J.str "agent"), ("parts", J.arr [textPart t])]

/-- A completed-state response body with the given artifacts and history. -/
def completedBody (arts hist : List J) : J :=
  J.obj [("result", J.obj [("status", J.obj [("state", J.str "completed")]),
                           ("artifacts", J.arr arts), ("history", J.arr hist)])]

/-- A transport/session-establishment sequence that fails on its first N
attempts (attempt i, counted from 1, raising errs i) and succeeds from
attempt N+1 on. -/
def failNTimes {ε : Type} (N : Nat) (errs : Nat → ε) : Nat → Except ε Unit :=
  fun i => if i ≤ N then .error (errs i) else .ok ()

/-- A transport raising timeout on attempts 0 and 1 and returning a
completed result with text "done" from attempt 2 on (the spec's
transient-failure-then-success scenario). -/
def timeoutTwiceTransport : Nat → HttpOutcome :=
  fun n =>
    if n < 2 then .timeout "timed out"
    else .httpResponse 200 "" (.ok (completedBody [mkArtifact [textPart "done"]] []))

/-! ## Theorems -/

set_option maxRecDepth 10000

/-- C10: sanitize_tool_name maps every character outside [A-Za-z0-9_-] to an
underscore, so every output character is in that class — the output matches
the anchored character-class regex — and the function is total (a Lean
function on all of String) and idempotent. -/
theorem sanitize_tool_name_idempotent_safe (x : String) :
    (∀ c ∈ (sanitize_tool_name x).data, isSafeChar c = true) ∧
    sanitize_tool_name (sanitize_tool_name x) = sanitize_tool_name x := by
  have hstep : ∀ c : Char,
      isSafeChar (if isSafeChar c then c else '_') = true := by
    intro c
    by_cases h : isSafeChar c
    · simp [h]
    · rw [if_neg h]
      decide
  refine ⟨?_, ?_⟩
  · intro c hc
    simp only [sanitize_tool_name, List.mem_map] at hc
    obtain ⟨d, _, rfl⟩ := hc
    exact hstep d
  · show String.mk _ = String.mk _
    simp only [sanitize_tool_name, List.map_map]
    congr 1
    apply List.map_congr_left
    intro d _
    simp only [Function.comp]
    by_cases h : isSafeChar d
    · simp [h]
    · simp [h]

/-- C6: on the spec's own example the MCP branch of
filtered_prepare_dynamic_tools filters by the allow-list patterns, but the
A2A (stateless) branch prepares every discovered skill even when the
provider has an allow-list entry that matches none of them: the allow-list
is never consulted there. -/
theorem prepare_tools_filtering_evidence :
    filtered_prepare_dynamic_tools
        [.mcp "s" [⟨"list_pods"⟩, ⟨"describe_node"⟩, ⟨"delete_pod"⟩]]
        [("s", ["list_*", "describe_*"])] = ["list_pods", "describe_node"] ∧
    filtered_prepare_dynamic_tools
        [.a2a "k" [⟨some "delete_pod", none, "d"⟩]]
        [("k", ["list_*", "describe_*"])] = ["delete_pod"] := by
  decide

/-- C4: list_tools clears the dirty flag before the fetch, so when the fetch
fails the error propagates with the flag already clean — and a subsequent
call on a stale non-empty cache returns it without re-fetching.  Scenario: a
connected caching server holds a previously fetched list, the cache is
invalidated, and the re-fetch fails. -/
theorem listTools_dirty_flag_cleared_before_fetch :
    (list_tools ⟨true, true, true, some [⟨"t1"⟩]⟩ (.error "network down")).result =
      .fetchFailed "network down" ∧
    (list_tools ⟨true, true, true, some [⟨"t1"⟩]⟩ (.error "network down")).state.cacheDirty
      = false ∧
    list_tools (list_tools ⟨true, true, true, some [⟨"t1"⟩]⟩ (.error "network down")).state
        (.error "still down") =
      ⟨.ok [⟨"t1"⟩], false, ⟨true, true, false, some [⟨"t1"⟩]⟩⟩ := by
  decide

/-- C5 counterexample: with caching enabled, a successful list_tools call
whose fetch returns the empty list does not make the next call a cache hit:
the second call performs a fetch again (the Python truthiness test on
self._tools_list rejects []), falsifying "after any successful listTools()
call, a second call performs zero network fetches". -/
theorem listTools_empty_cache_refetch_cex :
    (list_tools ⟨true, true, true, none⟩ (.ok [])).result = .ok [] ∧
    ListToolsStep.fetchPerformed
      (list_tools ((list_tools ⟨true, true, true, none⟩ (.ok [])).state) (.ok [])) = true := by
  decide

/-- C5 (amended): with caching enabled on a connected server, after a
list_tools call that returns a non-empty list, a second call performs zero
fetches and returns the same list with the state unchanged; and after
invalidate_tools_cache, the next call performs exactly one fetch. -/
theorem listTools_cache_amended (st : ServerState) (tools out : List MCPTool)
    (fetch2 fetch3 : Except String (List MCPTool))
    (hconn : st.sessionConnected = true) (hcache : st.cache_tools_list = true)
    (hres : (list_tools st (.ok tools)).result = .ok out) (hout : out ≠ []) :
    list_tools (list_tools st (.ok tools)).state fetch2 =
      ⟨.ok out, false, (list_tools st (.ok tools)).state⟩ ∧
    ListToolsStep.fetchPerformed
      (list_tools (invalidate_tools_cache (list_tools st (.ok tools)).state) fetch3)
      = true := by
  obtain ⟨o, os, rfl⟩ := List.exists_cons_of_ne_nil hout
  obtain ⟨conn, cache, dirty, tl⟩ := st
  subst hconn
  subst hcache
  cases dirty with
  | true =>
      simp only [list_tools] at hres ⊢
      simp at hres
      subst hres
      refine ⟨by simp [list_tools], ?_⟩
      cases fetch3 <;> simp [list_tools, invalidate_tools_cache]
  | false =>
      cases tl with
      | none =>
          simp only [list_tools] at hres ⊢
          simp at hres
          subst hres
          refine ⟨by simp [list_tools], ?_⟩
          cases fetch3 <;> simp [list_tools, invalidate_tools_cache]
      | some cached =>
          cases cached with
          | nil =>
              simp only [list_tools] at hres ⊢
              simp at hres
              subst hres
              refine ⟨by simp [list_tools], ?_⟩
              cases fetch3 <;> simp [list_tools, invalidate_tools_cache]
          | cons c cs =>
              simp only [list_tools] at hres ⊢
              simp at hres
              obtain ⟨rfl, rfl⟩ := hres
              refine ⟨by simp [list_tools], ?_⟩
              cases fetch3 <;> simp [list_tools, invalidate_tools_cache]

/-- C5 witness: the amended cache behaviour at a concrete run. -/
theorem listTools_cache_amended_witness :
    list_tools (list_tools ⟨true, true, true, none⟩ (.ok [⟨"t"⟩])).state (.ok [⟨"u"⟩]) =
      ⟨.ok [⟨"t"⟩], false, (list_tools ⟨true, true, true, none⟩ (.ok [⟨"t"⟩])).state⟩ ∧
    (list_tools
        (invalidate_tools_cache (list_tools ⟨true, true, true, none⟩ (.ok [⟨"t"⟩])).state)
        (.ok [⟨"u"⟩])).fetchPerformed = true :=
  listTools_cache_amended ⟨true, true, true, none⟩ [⟨"t"⟩] [⟨"t"⟩] (.ok [⟨"u"⟩])
    (.ok [⟨"u"⟩]) rfl rfl (by decide) (by decide)

/-- C3 (amended): for a completed response, send_task_async prefers the
first artifact when it has a non-empty parts list — returning the
concatenated text, or the no-text sentinel when those parts contain no text,
without consulting the history; it falls back to the history scan only when
there are no artifacts or the first artifact's parts list is empty, and in
the spec's example (artifacts present with an empty parts list, history
holding one agent message with text "hist") it extracts "hist". -/
theorem completed_extraction_amended (parts rest hist : List J) (hp : parts ≠ []) :
    (collectText parts ≠ "" →
      processBody (completedBody (mkArtifact parts :: rest) hist) =
        .ok (collectText parts)) ∧
    (collectText parts = "" →
      processBody (completedBody (mkArtifact parts :: rest) hist) =
        .ok "No text content in response") ∧
    processBody (completedBody (mkArtifact [] :: rest) hist) =
      processBody (completedBody [] hist) ∧
    processBody (completedBody [mkArtifact []] [agentTextMsg "hist"]) = .ok "hist" := by
  obtain ⟨p0, ps, rfl⟩ := List.exists_cons_of_ne_nil hp
  refine ⟨?_, ?_, ?_, by decide⟩
  · intro ht
    simp [processBody, processCompleted, jHas, jGet, jGetD, completedBody, mkArtifact,
      List.lookup, ht]
  · intro ht
    simp [processBody, processCompleted, jHas, jGet, jGetD, completedBody, mkArtifact,
      List.lookup, ht]
  · simp [processBody, processCompleted, jHas, jGet, jGetD, completedBody, mkArtifact,
      List.lookup]

/-- C3 witness: the amended extraction at a concrete completed response with
one text-bearing artifact part. -/
theorem completed_extraction_amended_witness :
    collectText [textPart "x"] ≠ "" ∧
    processBody (completedBody [mkArtifact [textPart "x"]] []) =
      .ok (collectText [textPart "x"]) :=
  ⟨by decide, (completed_extraction_amended [textPart "x"] [] [] (List.cons_ne_nil _ _)).1
    (by decide)⟩

/-- C3 counterexample: a completed response whose artifacts are present with
a non-empty parts list containing no text-typed part does not fall back to
the history — even when the history holds an agent message with text
"hist", the call returns the no-text sentinel, falsifying the claimed
fallback. -/
theorem completed_extraction_skips_history_cex :
    processBody (completedBody [J.obj [("parts", J.arr [J.obj [("kind", J.str "data")]])]]
        [agentTextMsg "hist"]) = .ok "No text content in response" ∧
    processBody (completedBody [J.obj [("parts", J.arr [J.obj [("kind", J.str "data")]])]]
        [agentTextMsg "hist"]) ≠ .ok "hist" := by
  decide

/-- Helper: when every attempt up to the fuel fails, connectGo exhausts the
budget and reports the error of the last attempt performed. -/
theorem connectGo_all_fail {ε : Type} (N : Nat) (errs : Nat → ε) :
    ∀ fuel performed le, 1 ≤ fuel → performed + fuel ≤ N →
      connectGo (failNTimes N errs) fuel performed le =
        .failed (performed + fuel) (some (errs (performed + fuel))) := by
  intro fuel
  induction fuel with
  | zero => intro p le h1 _; omega
  | succ f ih =>
      intro p le _ hle
      have hp1 : p + 1 ≤ N := by omega
      simp only [connectGo, failNTimes, if_pos hp1]
      cases f with
      | zero => simp [connectGo]
      | succ f2 =>
          have h := ih (p + 1) (some (errs (p + 1))) (by omega) (by omega)
          have harith : p + 1 + (f2 + 1) = p + (f2 + 1 + 1) := by omega
          rw [harith] at h
          exact h

/-- Helper: once past the failing prefix, connectGo succeeds on the very
next attempt, i.e. at attempt N+1, whatever fuel remains. -/
theorem connectGo_succeeds {ε : Type} (N : Nat) (errs : Nat → ε) :
    ∀ fuel performed le, performed ≤ N → N < performed + fuel →
      connectGo (failNTimes N errs) fuel performed le = .connected (N + 1) := by
  intro fuel
  induction fuel with
  | zero => intro p le h1 h2; omega
  | succ f ih =>
      intro p le hpN hlt
      by_cases hp : p = N
      · subst hp
        simp only [connectGo, failNTimes]
        rw [if_neg (by omega)]
      · have hp1 : p + 1 ≤ N := by omega
        simp only [connectGo, failNTimes, if_pos hp1]
        exact ih (p + 1) (some (errs (p + 1))) (by omega) (by omega)

/-- C1: against a transport/session sequence that fails N times then
succeeds, connect succeeds after performing exactly N+1 attempts whenever
max_retries ≥ N+1; with 1 ≤ max_retries ≤ N it performs exactly max_retries
attempts and fails by re-raising the last underlying transport error (the
error of attempt max_retries) — server.py propagates that last error
directly, which is the spec's connection-error category. -/
theorem connect_retry_discipline {ε : Type} (N max_retries : Nat) (errs : Nat → ε) :
    (N + 1 ≤ max_retries →
      connect (failNTimes N errs) max_retries = .connected (N + 1)) ∧
    (1 ≤ max_retries → max_retries ≤ N →
      connect (failNTimes N errs) max_retries =
        .failed max_retries (some (errs max_retries))) := by
  constructor
  · intro h
    exact connectGo_succeeds N errs max_retries 0 none (by omega) (by omega)
  · intro h1 h2
    have h := connectGo_all_fail N errs max_retries 0 none h1 (by omega)
    simpa using h

/-- C1 witness: fail once then succeed; budget 3 connects on attempt 2,
budget 1 exhausts after 1 attempt propagating the transport error. -/
theorem connect_retry_discipline_witness :
    connect (failNTimes 1 (fun _ => "boom")) 3 = .connected 2 ∧
    connect (failNTimes 1 (fun _ => "boom")) 1 = .failed 1 (some "boom") :=
  ⟨(connect_retry_discipline 1 3 (fun _ => "boom")).1 (by decide),
   (connect_retry_discipline 1 1 (fun _ => "boom")).2 (by decide) (by decide)⟩

/-- Helper: folding the middleware bind step from an arbitrary accumulator
is the bind of that accumulator with the remaining chain. -/
theorem applyMiddleware_foldl_bind {α ε : Type}
    (l : List (String → α → Except ε α)) (tool : String) :
    ∀ e : Except ε α,
      l.foldl (fun acc mw => acc.bind (mw tool)) e =
        e.bind (fun a => applyMiddleware l tool a) := by
  induction l with
  | nil => intro e; cases e <;> simp [applyMiddleware, Except.bind]
  | cons mw rest ih =>
      intro e
      rw [List.foldl_cons, ih]
      cases e with
      | error er => rfl
      | ok a => exact (ih (mw tool a)).symm

/-- Helper: every argument list recorded by the retry loop is the processed
arguments it was given. -/
theorem callToolGo_args {α ρ ε : Type} (tryAttempt : α → Nat → Except ε ρ)
    (reconnect : Nat → Except ε Unit) (mr : Nat) (pa : α) :
    ∀ fuel attempt calls, (∀ a ∈ calls, a = pa) →
      ∀ a ∈ (callToolGo tryAttempt reconnect mr pa fuel attempt calls).attemptArgs,
        a = pa := by
  intro fuel
  induction fuel with
  | zero => intro attempt calls hc; simpa [callToolGo] using hc
  | succ f ih =>
      intro attempt calls hc
      have hext : ∀ a ∈ calls ++ [pa], a = pa := by
        intro a ha
        rcases List.mem_append.1 ha with h | h
        · exact hc a h
        · simpa using h
      cases htry : tryAttempt pa attempt with
      | ok r =>
          simp only [callToolGo, htry]
          simpa using hext
      | error e =>
          by_cases hlt : attempt < mr
          · cases hrec : reconnect attempt with
            | ok u =>
                simp only [callToolGo, htry, hrec, if_pos hlt]
                exact ih (attempt + 1) (calls ++ [pa]) hext
            | error e2 =>
                simp only [callToolGo, htry, hrec, if_pos hlt]
                simpa using hext
          · simp only [callToolGo, htry, if_neg hlt]
            simpa using hext

/-- Helper: when every attempt fails and every reconnect succeeds, the loop
performs exactly its fuel's worth of attempts, all with the processed
arguments, and propagates the error of the final attempt (attempt mr). -/
theorem callToolGo_all_fail {α ρ ε : Type} (tryAttempt : α → Nat → Except ε ρ)
    (reconnect : Nat → Except ε Unit) (mr : Nat) (pa : α) (es : Nat → ε)
    (hfail : ∀ i, tryAttempt pa i = .error (es i))
    (hrec : ∀ i, reconnect i = .ok ()) :
    ∀ fuel attempt calls, attempt + fuel = mr + 1 → 1 ≤ fuel →
      callToolGo tryAttempt reconnect mr pa fuel attempt calls =
        ⟨calls ++ List.replicate fuel pa, .error (es mr)⟩ := by
  intro fuel
  induction fuel with
  | zero => intro a c h1 h2; omega
  | succ f ih =>
      intro attempt calls heq _
      simp only [callToolGo, hfail]
      cases f with
      | zero =>
          have hmr : attempt = mr := by omega
          subst hmr
          rw [if_neg (by omega)]
          simp
      | succ f2 =>
          have hlt : attempt < mr := by omega
          rw [if_pos hlt, hrec]
          have h := ih (attempt + 1) (calls ++ [pa]) (by omega) (by omega)
          rw [h]
          simp [List.replicate_succ]

/-- C9: the middleware chain is applied left to right, each step exactly
once, before any call attempt (head step first, then the rest on its
output); a middleware failure aborts the call with no underlying attempt,
propagating the error; every attempt of the retry loop uses the same
middleware-transformed arguments — in particular, when all attempts fail
and reconnects succeed, the trace is exactly max_retries attempts, each with
the processed arguments, propagating the final attempt's error. -/
theorem callTool_middleware_discipline {α ρ ε : Type}
    (mw : String → α → Except ε α) (mws : List (String → α → Except ε α))
    (tryAttempt : α → Nat → Except ε ρ) (reconnect : Nat → Except ε Unit)
    (mr : Nat) (tool : String) (args pa : α) (e : ε) (es : Nat → ε) :
    applyMiddleware (mw :: mws) tool args =
      (mw tool args).bind (fun a => applyMiddleware mws tool a) ∧
    (applyMiddleware mws tool args = .error e →
      call_tool mws tryAttempt reconnect mr tool args = ⟨[], .error e⟩) ∧
    (applyMiddleware mws tool args = .ok pa →
      ∀ a ∈ (call_tool mws tryAttempt reconnect mr tool args).attemptArgs, a = pa) ∧
    (applyMiddleware mws tool args = .ok pa →
      (∀ i, tryAttempt pa i = .error (es i)) → (∀ i, reconnect i = .ok ()) →
      1 ≤ mr →
      call_tool mws tryAttempt reconnect mr tool args =
        ⟨List.replicate mr pa, .error (es mr)⟩) := by
  refine ⟨?_, ?_, ?_, ?_⟩
  · simp only [applyMiddleware, List.foldl_cons]
    rw [applyMiddleware_foldl_bind]
    rfl
  · intro h
    simp [call_tool, h]
  · intro h
    simp only [call_tool, h]
    exact callToolGo_args tryAttempt reconnect mr pa mr 1 [] (by simp)
  · intro h hfail hrecon hmr
    simp only [call_tool, h]
    have hgo := callToolGo_all_fail tryAttempt reconnect mr pa es hfail hrecon mr 1 []
      (by omega) (by omega)
    simpa using hgo

/-- C9 witness: one middleware step (adding 1 to a numeric argument), a
session call that always fails, reconnects succeeding, budget 3: the trace
is three attempts, each with the transformed argument, propagating the
final error. -/
theorem callTool_middleware_discipline_witness :
    applyMiddleware [fun (_ : String) (a : Nat) => (Except.ok (a + 1) : Except String Nat)]
        "t" 0 = Except.ok 1 ∧
    call_tool [fun (_ : String) (a : Nat) => (Except.ok (a + 1) : Except String Nat)]
        (fun _ _ => (Except.error "down" : Except String Nat)) (fun _ => Except.ok ())
        3 "t" 0 = ⟨List.replicate 3 1, Except.error "down"⟩ :=
  ⟨rfl,
   (callTool_middleware_discipline (fun _ a => Except.ok (a + 1))
      [fun _ a => Except.ok (a + 1)] (fun _ _ => Except.error "down")
      (fun _ => Except.ok ()) 3 "t" 0 1 "x" (fun _ => "down")).2.2.2
    rfl (fun _ => rfl) (fun _ => rfl) (by omega)⟩

/-- Helper: an all-timeout transport exhausts the budget: one backoff of
2^attempt after every attempt but the last, then the timeout
A2AConnectionError naming max_retries + 1 attempts. -/
theorem sendTaskGo_all_timeout (mr : Nat) (trT : Nat → HttpOutcome)
    (htime : ∀ i, trT i = .timeout "t") :
    ∀ fuel attempt delays, attempt + fuel = mr + 1 → 1 ≤ fuel →
      sendTaskGo trT mr fuel attempt delays =
        ⟨.connError ("Request timed out after " ++ toString (mr + 1) ++
            " attempts. The A2A agent may be overloaded or experiencing issues."),
          mr + 1, delays ++ (List.range' attempt (mr - attempt)).map (fun i => 2 ^ i)⟩ := by
  intro fuel
  induction fuel with
  | zero => intro a d h1 h2; omega
  | succ f ih =>
      intro attempt delays heq _
      cases f with
      | zero =>
          have hmr : attempt = mr := by omega
          subst hmr
          simp only [sendTaskGo, htime]
          rw [if_neg (by omega)]
          simp [Nat.sub_self]
      | succ f2 =>
          have hlt : attempt < mr := by omega
          have h := ih (attempt + 1) (delays ++ [2 ^ attempt]) (by omega) (by omega)
          simp only [sendTaskGo, htime] at h ⊢
          rw [if_pos hlt, h]
          have hr : mr - attempt = (mr - (attempt + 1)) + 1 := by omega
          rw [hr, List.range'_succ]
          simp

/-- C2: send_task_async fails immediately with A2ATaskError on a transport-
successful response that carries a protocol-level error field — exactly one
attempt, no backoff, for every retry budget; an all-timeout transport is
retried with exponential backoff 2^attempt after every attempt but the
last, then fails with A2AConnectionError naming max_retries + 1 attempts;
and on the spec scenario (timeout twice, then a completed result)
max_retries = 2 returns the completed text after three attempts while
max_retries = 1 exhausts after two attempts with the timeout
A2AConnectionError. -/
theorem sendTask_retry_policy (mr : Nat) (m txt : String) (rest : List (String × J))
    (tr trT : Nat → HttpOutcome)
    (herr : tr 0 = .httpResponse 200 txt
      (.ok (J.obj (("error", J.obj [("message", J.str m)]) :: rest))))
    (htime : ∀ i, trT i = .timeout "t") :
    send_task_async tr mr = ⟨.taskError ("JSON-RPC error: " ++ m), 1, []⟩ ∧
    send_task_async trT mr =
      ⟨.connError ("Request timed out after " ++ toString (mr + 1) ++
          " attempts. The A2A agent may be overloaded or experiencing issues."),
        mr + 1, (List.range mr).map (fun i => 2 ^ i)⟩ ∧
    send_task_async timeoutTwiceTransport 2 = ⟨.ok "done", 3, [1, 2]⟩ ∧
    send_task_async timeoutTwiceTransport 1 =
      ⟨.connError
          "Request timed out after 2 attempts. The A2A agent may be overloaded or experiencing issues.",
        2, [1]⟩ := by
  refine ⟨?_, ?_, by decide, by decide⟩
  · simp only [send_task_async, sendTaskGo, herr]
    norm_num
    simp [processBody, jHas, jGet, jGetD, List.lookup]
  · have h := sendTaskGo_all_timeout mr trT htime (mr + 1) 0 [] (by omega) (by omega)
    simpa [send_task_async, List.range_eq_range'] using h

/-- C2 witness: the retry policy at concrete inputs — a protocol error body
with budget 5, and an all-timeout transport with budget 1. -/
theorem sendTask_retry_policy_witness :
    send_task_async
        (fun _ => .httpResponse 200 ""
          (.ok (J.obj [("error", J.obj [("message", J.str "bad")])]))) 5 =
      ⟨.taskError "JSON-RPC error: bad", 1, []⟩ ∧
    send_task_async (fun _ => .timeout "t") 1 =
      ⟨.connError
          "Request timed out after 2 attempts. The A2A agent may be overloaded or experiencing issues.",
        2, [1]⟩ := by
  refine ⟨?_, ?_⟩
  · exact (sendTask_retry_policy 5 "bad" "" []
      (fun _ => .httpResponse 200 "" (.ok (J.obj [("error", J.obj [("message", J.str "bad")])])))
      (fun _ => .timeout "t") rfl (fun _ => rfl)).1
  · have h := (sendTask_retry_policy 1 "bad" "" []
      (fun _ => .httpResponse 200 "" (.ok (J.obj [("error", J.obj [("message", J.str "bad")])])))
      (fun _ => .timeout "t") rfl (fun _ => rfl)).2.1
    simpa using h

/-- Helper: equal code points give equal characters. -/
theorem char_eq_of_toNat_eq {a b : Char} (h : a.toNat = b.toNat) : a = b :=
  Char.ext (UInt32.toNat.inj h)

/-- Helper: the code-point order is asymmetric. -/
theorem keyLt_asymm : ∀ a b : List Char, keyLt a b = true → keyLt b a = true → False := by
  intro a
  induction a with
  | nil =>
      intro b h1 h2
      cases b <;> simp [keyLt] at h1 h2
  | cons c cs ih =>
      intro b h1 h2
      cases b with
      | nil => simp [keyLt] at h1
      | cons d ds =>
          simp only [keyLt, Bool.or_eq_true, Bool.and_eq_true, decide_eq_true_eq] at h1 h2
          rcases h1 with h1 | ⟨h1e, h1r⟩ <;> rcases h2 with h2 | ⟨h2e, h2r⟩
          · omega
          · omega
          · omega
          · exact ih ds h1r h2r

/-- Helper: the code-point order is transitive. -/
theorem keyLt_trans : ∀ a b c : List Char,
    keyLt a b = true → keyLt b c = true → keyLt a c = true := by
  intro a
  induction a with
  | nil =>
      intro b c h1 h2
      cases b with
      | nil => simp [keyLt] at h1
      | cons d ds =>
          cases c with
          | nil => simp [keyLt] at h2
          | cons e es => simp [keyLt]
  | cons x xs ih =>
      intro b c h1 h2
      cases b with
      | nil => simp [keyLt] at h1
      | cons y ys =>
          cases c with
          | nil => simp [keyLt] at h2
          | cons z zs =>
              simp only [keyLt, Bool.or_eq_true, Bool.and_eq_true,
                decide_eq_true_eq] at h1 h2 ⊢
              rcases h1 with h1 | ⟨h1e, h1r⟩ <;> rcases h2 with h2 | ⟨h2e, h2r⟩
              · exact Or.inl (by omega)
              · exact Or.inl (by omega)
              · exact Or.inl (by omega)
              · exact Or.inr ⟨by omega, ih ys zs h1r h2r⟩

/-- Helper: the code-point order is connected — mutually unrelated lists are
equal. -/
theorem keyLt_conn : ∀ a b : List Char,
    keyLt a b = false → keyLt b a = false → a = b := by
  intro a
  induction a with
  | nil =>
      intro b h1 _
      cases b with
      | nil => rfl
      | cons d ds => simp [keyLt] at h1
  | cons c cs ih =>
      intro b h1 h2
      cases b with
      | nil => simp [keyLt] at h2
      | cons d ds =>
          simp only [keyLt, Bool.or_eq_false_iff, Bool.and_eq_false_iff,
            decide_eq_false_iff_not] at h1 h2
          have heq : c.toNat = d.toNat := by omega
          have hcs : keyLt cs ds = false := by
            rcases h1.2 with h | h
            · exact absurd heq h
            · exact h
          have hds : keyLt ds cs = false := by
            rcases h2.2 with h | h
            · exact absurd heq.symm h
            · exact h
          rw [char_eq_of_toNat_eq heq, ih ds hcs hds]

instance : IsTotal (String × J) keyRel := by
  constructor
  intro a b
  unfold keyRel keyLe
  cases h : keyLt b.1.data a.1.data with
  | false => exact Or.inl (by simp [h])
  | true =>
      cases h2 : keyLt a.1.data b.1.data with
      | false => exact Or.inr (by simp [h2])
      | true => exact (keyLt_asymm _ _ h2 h).elim

instance : IsTrans (String × J) keyRel := by
  constructor
  intro a b c hab hbc
  unfold keyRel keyLe at hab hbc ⊢
  simp only [Bool.not_eq_true'] at hab hbc ⊢
  cases hca : keyLt c.1.data a.1.data with
  | false => rfl
  | true =>
      exfalso
      cases hbc2 : keyLt b.1.data c.1.data with
      | true =>
          have := keyLt_trans _ _ _ hbc2 hca
          rw [this] at hab
          simp at hab
      | false =>
          have hdata := keyLt_conn _ _ hbc hbc2
          rw [← hdata] at hab
          rw [hca] at hab
          simp at hab

instance : IsAntisymm (String × J) keyRelLt := by
  constructor
  intro a b h1 h2
  exact (keyLt_asymm _ _ h1 h2).elim

/-- Helper: a keyRel-sorted entry list with pairwise distinct keys is
strictly sorted. -/
theorem sorted_keyRelLt_of_sorted {l : List (String × J)}
    (hs : List.Sorted keyRel l) (hnd : (l.map Prod.fst).Nodup) :
    List.Sorted keyRelLt l := by
  have hpw : List.Pairwise (fun a b : String × J => a.1 ≠ b.1) l := by
    simpa [List.Nodup, List.pairwise_map] using hnd
  have hand := hs.and hpw
  refine hand.imp ?_
  rintro a b ⟨hle, hne⟩
  unfold keyRel keyLe at hle
  simp only [Bool.not_eq_true'] at hle
  unfold keyRelLt
  cases h : keyLt a.1.data b.1.data with
  | true => rfl
  | false =>
      have hdata := keyLt_conn _ _ h hle
      exact absurd (String.ext hdata) hne

/-- Helper: sorting by key is invariant under permutation when the keys are
pairwise distinct. -/
theorem sortByKey_eq_of_perm {l1 l2 : List (String × J)} (hp : l1.Perm l2)
    (hnd : (l1.map Prod.fst).Nodup) : sortByKey l1 = sortByKey l2 := by
  have hperm : (sortByKey l1).Perm (sortByKey l2) :=
    (List.perm_insertionSort keyRel l1).trans
      (hp.trans (List.perm_insertionSort keyRel l2).symm)
  have hs1 : List.Sorted keyRel (sortByKey l1) := List.sorted_insertionSort keyRel l1
  have hs2 : List.Sorted keyRel (sortByKey l2) := List.sorted_insertionSort keyRel l2
  have hnd1 : ((sortByKey l1).map Prod.fst).Nodup :=
    (((List.perm_insertionSort keyRel l1).map Prod.fst).nodup_iff).mpr hnd
  have hnd2 : ((sortByKey l2).map Prod.fst).Nodup :=
    (((List.perm_insertionSort keyRel l2).map Prod.fst).nodup_iff).mpr
      (((hp.map Prod.fst).nodup_iff).mp hnd)
  exact List.eq_of_perm_of_sorted hperm (sorted_keyRelLt_of_sorted hs1 hnd1)
    (sorted_keyRelLt_of_sorted hs2 hnd2)

/-- Helper: the serialization fuel is permutation-invariant. -/
theorem jsizeFields_perm {l1 l2 : List (String × J)} (hp : l1.Perm l2) :
    jsizeFields l1 = jsizeFields l2 := by
  induction hp with
  | nil => rfl
  | cons x h ih =>
      obtain ⟨k, v⟩ := x
      simp [jsizeFields, ih]
  | swap x y l =>
      obtain ⟨k1, v1⟩ := x
      obtain ⟨k2, v2⟩ := y
      simp [jsizeFields]
      omega
  | trans h1 h2 ih1 ih2 => omega

/-- Helper: at any fuel, serializing two objects with the same sorted field
list gives the same string. -/
theorem dumpsF_obj_congr {l1 l2 : List (String × J)}
    (hsort : sortByKey l1 = sortByKey l2) :
    ∀ f, dumpsF f (J.obj l1) = dumpsF f (J.obj l2) := by
  intro f
  cases f with
  | zero => rfl
  | succ f2 =>
      simp only [dumpsF]
      rw [hsort]

/-- Helper: the canonical serialization of an object is invariant under
permutation of its (distinct-keyed) fields. -/
theorem dumps_obj_congr {l1 l2 : List (String × J)} (hp : l1.Perm l2)
    (hnd : (l1.map Prod.fst).Nodup) : dumps (J.obj l1) = dumps (J.obj l2) := by
  have hfuel : jsize (J.obj l1) = jsize (J.obj l2) := by
    simp [jsize, jsizeFields_perm hp]
  rw [dumps, dumps, hfuel]
  exact dumpsF_obj_congr (sortByKey_eq_of_perm hp hnd) _

/-- Helper: after dict assignment the assigned key holds the new value. -/
theorem lookup_setKey (l : List (String × J)) (k : String) (v : J) :
    (setKey l k v).lookup k = some v := by
  induction l with
  | nil => simp [setKey, List.lookup]
  | cons kv rest ih =>
      obtain ⟨k0, v0⟩ := kv
      by_cases h : k0 = k
      · subst h
        simp [setKey, List.lookup]
      · have hbeq : (k == k0) = false := beq_eq_false_iff_ne.mpr (Ne.symm h)
        simp [setKey, h, List.lookup, hbeq, ih]

/-- Helper: dict assignment leaves every other key unchanged. -/
theorem lookup_setKey_ne (l : List (String × J)) (k q : String) (v : J)
    (hq : q ≠ k) : (setKey l k v).lookup q = l.lookup q := by
  induction l with
  | nil => simp [setKey, List.lookup, beq_eq_false_iff_ne.mpr hq]
  | cons kv rest ih =>
      obtain ⟨k0, v0⟩ := kv
      by_cases h : k0 = k
      · subst h
        simp [setKey, List.lookup, beq_eq_false_iff_ne.mpr hq]
      · by_cases hq0 : q = k0
        · subst hq0
          simp [setKey, h, List.lookup]
        · have hbeq : (q == k0) = false := beq_eq_false_iff_ne.mpr hq0
          simp [setKey, h, List.lookup, hbeq, ih]

/-- Helper: deleting a key after assigning it is deleting it directly. -/
theorem delKey_setKey (l : List (String × J)) (k : String) (v : J) :
    delKey (setKey l k v) k = delKey l k := by
  induction l with
  | nil => simp [setKey, delKey, List.filter]
  | cons kv rest ih =>
      obtain ⟨k0, v0⟩ := kv
      by_cases h : k0 = k
      · subst h
        simp [setKey, delKey, List.filter]
      · have hbne : (k0 != k) = true := bne_iff_ne.mpr h
        simp only [setKey, if_neg h, delKey, List.filter, hbne]
        simpa [delKey] using ih

/-- Helper: the auth value of a signed dict is the freshly computed
signature. -/
theorem authValue_sign (key : List Nat) (p : List (String × J)) :
    authValue (sign_request key p) = computedSignature key p := by
  simp only [sign_request, authValue, computedSignature, lookup_setKey]

/-- C7 counterexample: two params dicts holding the same bindings in
different insertion orders (so they differ as dicts only by key order)
receive the identical auth value — sort_keys canonicalization makes the
signature order-insensitive, falsifying "reordering ... yields different
signatures". -/
theorem sign_reorder_same_signature_cex :
    ([("b", J.num 1), ("a", J.num 2)] : List (String × J)) ≠
      [("a", J.num 2), ("b", J.num 1)] ∧
    authValue (sign_request (strBytes "k") [("b", J.num 1), ("a", J.num 2)]) =
      authValue (sign_request (strBytes "k") [("a", J.num 2), ("b", J.num 1)]) := by
  constructor
  · intro h
    have := congrArg (fun l => (l.headD ("z", J.null)).1) h
    simp at this
  · rfl

/-- C7 (amended): signing is deterministic — the auth value is a function of
the key and the auth-stripped params, so identical inputs (and inputs equal
after stripping auth) sign identically; reordering the entries of a
distinct-keyed params dict leaves the signature unchanged, because the
payload serializes with sorted keys; removing a key changes the canonical
payload, and at the concrete test input it changes the signature. -/
theorem sign_request_amended (key : List Nat) (p1 p2 q : List (String × J))
    (hperm : p1.Perm p2) (hnodup : (p1.map Prod.fst).Nodup) :
    (delKey p1 "auth" = delKey q "auth" →
      authValue (sign_request key p1) = authValue (sign_request key q)) ∧
    authValue (sign_request key p1) = authValue (sign_request key p2) ∧
    authValue (sign_request (strBytes "k") [("a", J.num 1), ("b", J.num 2)]) ≠
      authValue (sign_request (strBytes "k") [("a", J.num 1)]) := by
  refine ⟨?_, ?_, by decide⟩
  · intro h
    rw [authValue_sign, authValue_sign]
    unfold computedSignature
    rw [h]
  · have hd : (delKey p1 "auth").Perm (delKey p2 "auth") := hperm.filter _
    have hsub : (delKey p1 "auth").Sublist p1 := List.filter_sublist _
    have hnd : ((delKey p1 "auth").map Prod.fst).Nodup :=
      List.Nodup.sublist (hsub.map Prod.fst) hnodup
    rw [authValue_sign, authValue_sign]
    unfold computedSignature
    rw [dumps_obj_congr hd hnd]

/-- C7 witness: the amended signing properties at concrete inputs — a
transposition of a two-entry dict signs identically, and stripping a stale
auth key first leaves the signature unchanged. -/
theorem sign_request_amended_witness :
    authValue (sign_request (strBytes "key") [("b", J.num 1), ("a", J.num 2)]) =
      authValue (sign_request (strBytes "key") [("a", J.num 2), ("b", J.num 1)]) ∧
    authValue (sign_request (strBytes "key") [("b", J.num 1), ("a", J.num 2)]) =
      authValue (sign_request (strBytes "key")
        [("b", J.num 1), ("a", J.num 2), ("auth", J.str "stale")]) := by
  have h := sign_request_amended (strBytes "key") [("b", J.num 1), ("a", J.num 2)]
    [("a", J.num 2), ("b", J.num 1)]
    [("b", J.num 1), ("a", J.num 2), ("auth", J.str "stale")]
    (List.Perm.swap _ _ _) (by simp)
  exact ⟨h.2.1, h.1 rfl⟩

/-- C8: the signed dict holds every original key with its original value
(auth aside), holds auth, and the auth value is always the freshly computed
signature of the auth-stripped params — in particular it is unchanged by
whatever stale auth value the input carried. -/
theorem sign_request_roundtrip (key : List Nat) (params : List (String × J))
    (k : String) (v : J) (hk : k ≠ "auth") :
    (sign_request key params).lookup k = params.lookup k ∧
    (sign_request key params).lookup "auth" =
      some (J.str (computedSignature key params)) ∧
    authValue (sign_request key (setKey params "auth" v)) =
      authValue (sign_request key params) := by
  refine ⟨?_, ?_, ?_⟩
  · simp only [sign_request]
    exact lookup_setKey_ne params "auth" k _ hk
  · simp only [sign_request, computedSignature]
    exact lookup_setKey params "auth" _
  · rw [authValue_sign, authValue_sign]
    unfold computedSignature
    rw [delKey_setKey]

/-- C8 witness: the signing round-trip at a concrete params dict carrying a
stale auth value. -/
theorem sign_request_roundtrip_witness :
    (sign_request (strBytes "k") [("a", J.num 1), ("auth", J.str "stale")]).lookup "a" =
      some (J.num 1) ∧
    (sign_request (strBytes "k") [("a", J.num 1), ("auth", J.str "stale")]).lookup "auth" =
      some (J.str (computedSignature (strBytes "k")
        [("a", J.num 1), ("auth", J.str "stale")])) ∧
    authValue (sign_request (strBytes "k")
        (setKey [("a", J.num 1), ("auth", J.str "stale")] "auth" (J.str "other"))) =
      authValue (sign_request (strBytes "k") [("a", J.num 1), ("auth", J.str "stale")]) := by
  have h := sign_request_roundtrip (strBytes "k")
    [("a", J.num 1), ("auth", J.str "stale")] "a" (J.str "other") (by decide)
  exact ⟨by rw [h.1]; rfl, h.2.1, h.2.2⟩

end MCPProj

